import Mathlib

/-!
Shallow embedding of `src/projects/unit3/build-mcp-server/starter/server.py`
(the `pr-agent` MCP server starter code) and verification of the frozen
claims about it.

Modelling conventions:
* Python strings are Lean `String`s (we restrict attention to the ASCII /
  BMP characters that actually occur in git output; `str.splitlines`,
  `str.strip`, `\d` and `\s` are modelled over their ASCII behaviour,
  which coincides with Python's on such inputs).
* `subprocess.run(["git"] + args, cwd=…, check=True)` is modelled by an
  oracle `exec : Option String → List String → GitResult` giving, for a
  working directory and full command line, either the captured stdout
  (exit 0), a `CalledProcessError` with captured stderr (non-zero exit),
  or a `FileNotFoundError` (binary not invocable).
* `mcp.get_context()` / `context.session.list_roots()` is modelled by a
  `RootsOutcome` oracle: either it raises (with the Python exception
  class abstracted to the classes the source's handlers distinguish:
  `ValueError` / `AttributeError`, caught at the resolution site;
  `FileNotFoundError` / `CalledProcessError`, caught by the outer tool
  handlers; anything else, which no handler catches) or it returns the
  list of root paths (`root.uri.path` values).
* The JSON documents returned by the tools (`json.dumps(...)`) are
  modelled structurally: one constructor per distinct dictionary shape
  the source can build, with a field per dictionary key.  An uncaught
  Python exception escaping the tool body is modelled by `Outcome.raises`.
-/

namespace PrAgent

/-- Python `\s` / `str.strip()` whitespace over ASCII:
space, tab, newline, carriage return, vertical tab, form feed. -/
def isSpacePy (c : Char) : Bool :=
  c = ' ' || c = '\t' || c = '\n' || c = '\r' ||
  c = Char.ofNat 0x0b || c = Char.ofNat 0x0c

/-- The line boundaries recognised by Python `str.splitlines`:
`\n`, `\r` (with `\r\n` counting as a single break, handled in
`splitlinesAux`), `\v`, `\f`, FS, GS, RS, NEL, LINE SEPARATOR and
PARAGRAPH SEPARATOR. -/
def isLineBreakPy (c : Char) : Bool :=
  c = '\n' || c = '\r' ||
  c = Char.ofNat 0x0b || c = Char.ofNat 0x0c ||
  c = Char.ofNat 0x1c || c = Char.ofNat 0x1d || c = Char.ofNat 0x1e ||
  c = Char.ofNat 0x85 || c = Char.ofNat 0x2028 || c = Char.ofNat 0x2029

/-- Worker for `splitlinesPy`: `acc` holds the characters of the current
(unterminated) line in reverse; `afterCR` records that the previous
character was a `\r` whose line was already emitted, so that a directly
following `\n` is part of the same `\r\n` break and is consumed silently.
A final unterminated non-empty line is emitted; a terminator at end of
input does not create a trailing empty line — exactly Python
`str.splitlines()`. -/
def splitlinesAux (acc : List Char) (afterCR : Bool) : List Char → List String
  | [] => if acc.isEmpty then [] else [String.mk acc.reverse]
  | c :: rest =>
    if afterCR && c = '\n' then splitlinesAux [] false rest
    else if isLineBreakPy c then
      String.mk acc.reverse :: splitlinesAux [] (c = '\r') rest
    else splitlinesAux (c :: acc) false rest

/-- Python `s.splitlines()`. -/
def splitlinesPy (s : String) : List String :=
  splitlinesAux [] false s.data

/-- Python `"\n".join(lines)`. -/
def joinNL : List String → String
  | [] => ""
  | l :: rest =>
    match rest with
    | [] => l
    | _ :: _ => l ++ "\n" ++ joinNL rest

/-- Python `s.strip()` (whitespace strip from both ends). -/
def stripPy (s : String) : String :=
  String.mk (((s.data.dropWhile isSpacePy).reverse.dropWhile isSpacePy).reverse)

/-! ### The shortstat parser (server.py lines 110-123)

The source runs three independent `re.search` calls on the stripped
`--shortstat` output:
  `(\d+)\s+files?\s+changed`, `(\d+)\s+insertions?\(\+\)`,
  `(\d+)\s+deletions?\(-\)`,
each defaulting the corresponding count to 0 when it finds no match.
Each matcher below implements its pattern at a fixed start position;
`searchNum` scans start positions left to right, which is exactly
`re.search`'s leftmost-match rule.  Inside one pattern the only
backtracking point is the optional `s?` (greedy: the `s` branch is
tried first); `\d+` and `\s+` never profitably backtrack here because
each is followed by a character class disjoint from its own. -/

/-- Match a literal character sequence, returning the remainder. -/
def matchLit : List Char → List Char → Option (List Char)
  | [], s => some s
  | _ :: _, [] => none
  | c :: cs, d :: ds => if c = d then matchLit cs ds else none

/-- Match `\s+` (one or more whitespace characters, greedy). -/
def matchWs1 (s : List Char) : Option (List Char) :=
  match s with
  | [] => none
  | c :: _ => if isSpacePy c then some (s.dropWhile isSpacePy) else none

/-- Numeric value of a digit run (the regex group `(\d+)`). -/
def digitsToNat (ds : List Char) : Nat :=
  ds.foldl (fun n c => 10 * n + (c.toNat - '0'.toNat)) 0

/-- Match `(\d+)` (one or more digits, greedy) at the start, returning
the group's numeric value and the remainder. -/
def matchNum1 (s : List Char) : Option (Nat × List Char) :=
  match s with
  | [] => none
  | c :: _ =>
    if c.isDigit then some (digitsToNat (s.takeWhile Char.isDigit), s.dropWhile Char.isDigit)
    else none

/-- Match `(\d+)\s+files?\s+changed` at the start of `s`,
returning the numeric group. -/
def matchFilesAt (s : List Char) : Option Nat := do
  let (n, r1) ← matchNum1 s
  let r2 ← matchWs1 r1
  let r3 ← matchLit "file".data r2
  let tail := fun (r : List Char) => do
    let r' ← matchWs1 r
    let _ ← matchLit "changed".data r'
    pure n
  match r3 with
  | 's' :: r4 => (tail r4).orElse fun _ => tail r3
  | _ => tail r3

/-- Match `(\d+)\s+insertions?\(\+\)` at the start of `s`. -/
def matchInsAt (s : List Char) : Option Nat := do
  let (n, r1) ← matchNum1 s
  let r2 ← matchWs1 r1
  let r3 ← matchLit "insertion".data r2
  let tail := fun (r : List Char) => do
    let _ ← matchLit "(+)".data r
    pure n
  match r3 with
  | 's' :: r4 => (tail r4).orElse fun _ => tail r3
  | _ => tail r3

/-- Match `(\d+)\s+deletions?\(-\)` at the start of `s`. -/
def matchDelAt (s : List Char) : Option Nat := do
  let (n, r1) ← matchNum1 s
  let r2 ← matchWs1 r1
  let r3 ← matchLit "deletion".data r2
  let tail := fun (r : List Char) => do
    let _ ← matchLit "(-)".data r
    pure n
  match r3 with
  | 's' :: r4 => (tail r4).orElse fun _ => tail r3
  | _ => tail r3

/-- `re.search`: try the pattern at each start position, left to right. -/
def searchNum (m : List Char → Option Nat) : List Char → Option Nat
  | [] => none
  | c :: rest =>
    match m (c :: rest) with
    | some n => some n
    | none => searchNum m rest

/-- The `summary` dictionary `{files, insertions, deletions}`. -/
structure Summary where
  files : Nat
  insertions : Nat
  deletions : Nat
deriving Repr, DecidableEq

/-- server.py lines 111-123: the three independent extractions, each
defaulting to 0 when its pattern is absent from the shortstat line. -/
def parseShortstat (numstat : String) : Summary :=
  ⟨(searchNum matchFilesAt numstat.data).getD 0,
   (searchNum matchInsAt numstat.data).getD 0,
   (searchNum matchDelAt numstat.data).getD 0⟩

/-! ### The name-status parser (server.py lines 97-106) -/

/-- One element of `changed_files`: `{"path": …, "status": …}`. -/
structure ChangeRecord where
  path : String
  status : String
deriving Repr, DecidableEq

/-- Worker for `splitTab`. -/
def splitTabAux (acc : List Char) : List Char → List String
  | [] => [String.mk acc.reverse]
  | c :: rest =>
    if c = '\t' then String.mk acc.reverse :: splitTabAux [] rest
    else splitTabAux (c :: acc) rest

/-- Python `line.split("\t")`: split on every tab; always returns at
least one element (the empty string for empty input). -/
def splitTab (line : String) : List String :=
  splitTabAux [] line.data

/-- server.py lines 98-106: skip blank lines, split each remaining line
on tabs, take `parts[0]` as status and `parts[-1]` as path. -/
def parseNameStatus (name_status : String) : List ChangeRecord :=
  (splitlinesPy name_status).filterMap fun line =>
    if stripPy line = "" then none
    else
      let parts := splitTab line
      some ⟨parts.getLastD "", parts.headD ""⟩

/-! ### Diff truncation (server.py lines 132-141) -/

/-- The marker appended on truncation:
`f"\n--- Diff truncated at {max_diff_lines} lines ---"`.
Note the leading newline is part of the appended string. -/
def truncationMarker (max_diff_lines : Nat) : String :=
  "\n--- Diff truncated at " ++ Nat.repr max_diff_lines ++ " lines ---"

/-- The marker text without its leading newline. -/
def truncationMarkerText (max_diff_lines : Nat) : String :=
  "--- Diff truncated at " ++ Nat.repr max_diff_lines ++ " lines ---"

/-- server.py lines 133-141: split the raw diff into lines; if there are
more than `max_diff_lines`, keep the first `max_diff_lines`, append the
marker string and set `truncated`; re-join with `"\n"`. -/
def truncateDiff (full_diff : String) (max_diff_lines : Nat) : String × Bool :=
  let lines := splitlinesPy full_diff
  if lines.length > max_diff_lines then
    (joinNL (lines.take max_diff_lines ++ [truncationMarker max_diff_lines]), true)
  else
    (joinNL lines, false)

/-! ### The tool boundary (server.py lines 36-181) -/

/-- Outcome of one `subprocess.run(["git"] + args, cwd=wd, capture_output=True,
text=True, check=True)` call: `notFound` is `FileNotFoundError` (binary not
invocable), `failed` is `subprocess.CalledProcessError` (non-zero exit,
carrying captured stderr), `ok` carries captured stdout. -/
inductive GitResult where
  | notFound
  | failed (stderr : String)
  | ok (stdout : String)
deriving Repr, DecidableEq

/-- The class of a Python exception raised by
`mcp.get_context()` / `context.session.list_roots()`:
`valueError` and `attributeError` are the two classes the inner except
clause catches (server.py line 73); `fileNotFoundError` and
`calledProcessError` are the two classes the *outer* except clauses
catch (lines 145 and 154 — the root-resolution code at lines 67-75 sits
inside the same outer `try`, so these are converted to documents rather
than propagated); `otherError` stands for any other class, which no
handler catches.  A `CalledProcessError` carries its `cmd` attribute
(the source reads `getattr(e, "cmd", None)`; we model the list-valued
case, which is what the `subprocess` module itself always sets here)
and its `stderr` attribute with `None` already coerced to `""` (the
source reads `e.stderr or ""`). -/
inductive ExcKind where
  | valueError
  | attributeError
  | fileNotFoundError
  | calledProcessError (cmd : List String) (stderr : String)
  | otherError
deriving Repr, DecidableEq

/-- Behaviour of the host root-resolution capability for this call:
either the `get_context`/`list_roots` sequence raises, or it returns the
list of candidate root paths (each `root.uri.path`). -/
inductive RootsOutcome where
  | throws (e : ExcKind)
  | roots (paths : List String)
deriving Repr, DecidableEq

/-- server.py lines 64-75: resolve the working directory.  `none` stands
for Python `working_dir = None` (i.e. `subprocess` runs in the process's
current directory).  Only `ValueError` and `AttributeError` are caught
at this level; any other exception class leaves the resolution block
(`Except.error`) and is then dispatched by the outer except clauses in
`analyze_file_changes`. -/
def resolveWorkingDir (cwd_from_root : Bool) (ro : RootsOutcome) :
    Except ExcKind (Option String) :=
  if cwd_from_root then
    match ro with
    | .throws .valueError => .ok none
    | .throws .attributeError => .ok none
    | .throws e => .error e
    | .roots [] => .ok none
    | .roots (p :: _) => .ok (some p)
  else .ok none

/-- The keyword parameters of `analyze_file_changes`
(server.py lines 37-43). -/
structure Params where
  base_branch : String
  include_diff : Bool
  max_diff_lines : Nat
  cwd_from_root : Bool
  pathspec : String
deriving Repr, DecidableEq

/-- The default parameter values
(`"main"`, `True`, `500`, `True`, `""`). -/
def defaultParams : Params :=
  ⟨"main", true, 500, true, ""⟩

/-- The JSON document `analyze_file_changes` serialises
(`json.dumps(...)`), one constructor per dictionary shape the source can
build: the success dictionary of lines 125-141 (whose `diff`/`truncated`
keys are present iff `include_diff`, modelled by the `Option`), the
`git_failed` dictionary of lines 146-153 and the `git_not_found`
dictionary of lines 155-158. -/
inductive Doc where
  | success (base_branch : String) (changed_files : List ChangeRecord)
      (summary : Summary) (diffPart : Option (String × Bool))
  | gitFailed (cmd : List String) (stderr : String)
  | gitNotFound (hint : String)
deriving Repr, DecidableEq

/-- Result of one tool call: either a returned document or an uncaught
Python exception escaping the tool body (the source's `except` clauses
at lines 145 and 154 catch only `CalledProcessError` and
`FileNotFoundError`; at line 73 only `ValueError`/`AttributeError`; an
exception of any other class — `ExcKind.otherError` — hits no handler
and escapes). -/
inductive Outcome where
  | returns (doc : Doc)
  | raises (e : ExcKind)
deriving Repr, DecidableEq

/-- A log entry per `subprocess.run` call: the `cwd` argument and the
full command line `["git"] + args`. -/
abbrev CallLog := List (Option String × List String)

/-- The full command lines `analyze_file_changes` hands to
`subprocess.run`, in invocation order (server.py lines 87, 89, 97, 110,
133): version probe, repository probe, name-status listing, shortstat,
and — only when `include_diff` — the full diff. -/
def gitCmds (p : Params) : List (List String) :=
  let range_spec := p.base_branch ++ "...HEAD"
  let extra := if p.pathspec = "" then [] else [p.pathspec]
  [["git", "--version"],
   ["git", "rev-parse", "--is-inside-work-tree"],
   ["git", "diff", "--name-status", range_spec] ++ extra,
   ["git", "diff", "--shortstat", range_spec] ++ extra] ++
  (if p.include_diff then
    [["git", "diff", range_spec] ++ (if p.pathspec = "" then [] else ["--", p.pathspec])]
   else [])

/-- server.py lines 36-158: the whole tool body.  Returns the produced
outcome together with the log of `subprocess.run` invocations actually
made (in order).  Each `run_git` call is an oracle lookup; a `failed`
result is the `CalledProcessError` path of line 145 (note
`e.cmd = ["git"] + args` and `stderr` is `.strip()`-ped), a `notFound`
result is the `FileNotFoundError` path of line 154.  The root-resolution
code at lines 64-75 sits inside the same outer `try`, so an exception it
raises past the inner handler is dispatched by those same outer except
clauses: `CalledProcessError` becomes the `git_failed` document built
from the exception's own `cmd`/`stderr` attributes, `FileNotFoundError`
becomes the `git_not_found` document, and any other class escapes the
tool. -/
def analyze_file_changes (exec : Option String → List String → GitResult)
    (ro : RootsOutcome) (p : Params) : Outcome × CallLog :=
  match resolveWorkingDir p.cwd_from_root ro with
  | .error (.calledProcessError cmd stderr) =>
    (.returns (.gitFailed cmd (stripPy stderr)), [])
  | .error .fileNotFoundError =>
    (.returns (.gitNotFound "Git is not installed or not in PATH."), [])
  | .error e => (.raises e, [])
  | .ok wd =>
    let range_spec := p.base_branch ++ "...HEAD"
    let extra := if p.pathspec = "" then [] else [p.pathspec]
    let cmd1 := ["git", "--version"]
    match exec wd cmd1 with
    | .notFound => (.returns (.gitNotFound "Git is not installed or not in PATH."), [(wd, cmd1)])
    | .failed s => (.returns (.gitFailed cmd1 (stripPy s)), [(wd, cmd1)])
    | .ok _ =>
      let cmd2 := ["git", "rev-parse", "--is-inside-work-tree"]
      match exec wd cmd2 with
      | .notFound => (.returns (.gitNotFound "Git is not installed or not in PATH."),
          [(wd, cmd1), (wd, cmd2)])
      | .failed s => (.returns (.gitFailed cmd2 (stripPy s)), [(wd, cmd1), (wd, cmd2)])
      | .ok _ =>
        let cmd3 := ["git", "diff", "--name-status", range_spec] ++ extra
        match exec wd cmd3 with
        | .notFound => (.returns (.gitNotFound "Git is not installed or not in PATH."),
            [(wd, cmd1), (wd, cmd2), (wd, cmd3)])
        | .failed s => (.returns (.gitFailed cmd3 (stripPy s)),
            [(wd, cmd1), (wd, cmd2), (wd, cmd3)])
        | .ok name_status =>
          let changed_files := parseNameStatus name_status
          let cmd4 := ["git", "diff", "--shortstat", range_spec] ++ extra
          match exec wd cmd4 with
          | .notFound => (.returns (.gitNotFound "Git is not installed or not in PATH."),
              [(wd, cmd1), (wd, cmd2), (wd, cmd3), (wd, cmd4)])
          | .failed s => (.returns (.gitFailed cmd4 (stripPy s)),
              [(wd, cmd1), (wd, cmd2), (wd, cmd3), (wd, cmd4)])
          | .ok numstatRaw =>
            let summary := parseShortstat (stripPy numstatRaw)
            if p.include_diff then
              let cmd5 := ["git", "diff", range_spec] ++
                (if p.pathspec = "" then [] else ["--", p.pathspec])
              match exec wd cmd5 with
              | .notFound => (.returns (.gitNotFound "Git is not installed or not in PATH."),
                  [(wd, cmd1), (wd, cmd2), (wd, cmd3), (wd, cmd4), (wd, cmd5)])
              | .failed s => (.returns (.gitFailed cmd5 (stripPy s)),
                  [(wd, cmd1), (wd, cmd2), (wd, cmd3), (wd, cmd4), (wd, cmd5)])
              | .ok full_diff =>
                (.returns (.success p.base_branch changed_files summary
                    (some (truncateDiff full_diff p.max_diff_lines))),
                 [(wd, cmd1), (wd, cmd2), (wd, cmd3), (wd, cmd4), (wd, cmd5)])
            else
              (.returns (.success p.base_branch changed_files summary none),
               [(wd, cmd1), (wd, cmd2), (wd, cmd3), (wd, cmd4)])

/-! ### The other two tools (server.py lines 161-177)

In the starter source both bodies are `TODO` stubs that always return a
not-implemented error document. -/

/-- One entry of a template listing: `{name, content}`. -/
structure TemplateDescriptor where
  name : String
  content : String
deriving Repr, DecidableEq

/-- The JSON document shapes `get_pr_templates` / `suggest_template`
could serialise: an error dictionary `{error, hint}`, a template
listing, or a suggestion `{template, content, rationale}`. -/
inductive ToolDoc where
  | errorDoc (error : String) (hint : String)
  | templates (ts : List TemplateDescriptor)
  | suggestion (template : String) (content : String) (rationale : String)
deriving Repr, DecidableEq

/-- server.py lines 161-165: the body is
`return json.dumps({"error": "Not implemented yet", "hint": "Read templates from TEMPLATES_DIR"})`
— a stub, marked `TODO`, that never reads the template directory. -/
def get_pr_templates : ToolDoc :=
  .errorDoc "Not implemented yet" "Read templates from TEMPLATES_DIR"

/-- server.py lines 168-177: the body is
`return json.dumps({"error": "Not implemented yet", "hint": "Map change_type to templates"})`
— a stub, marked `TODO`, ignoring both arguments. -/
def suggest_template (changes_summary : String) (change_type : String) : ToolDoc :=
  .errorDoc "Not implemented yet" "Map change_type to templates"

/-! ### Lemmas about `splitlinesPy` / `joinNL` -/

lemma isLineBreakPy_nl : isLineBreakPy '\n' = true := by decide

lemma splitlinesAux_nil (acc : List Char) (b : Bool) :
    splitlinesAux acc b [] = if acc.isEmpty then [] else [String.mk acc.reverse] := by
  rw [splitlinesAux]

lemma splitlinesAux_cons_nobreak (acc : List Char) (b : Bool) (c : Char) (rest : List Char)
    (h : isLineBreakPy c = false) :
    splitlinesAux acc b (c :: rest) = splitlinesAux (c :: acc) false rest := by
  have hc : ¬(c = '\n') := fun e => by rw [e, isLineBreakPy_nl] at h; cases h
  rw [splitlinesAux]
  simp [h, hc]

lemma splitlinesAux_cons_nl (acc : List Char) (rest : List Char) :
    splitlinesAux acc false ('\n' :: rest)
      = String.mk acc.reverse :: splitlinesAux [] false rest := by
  rw [splitlinesAux]
  simp [isLineBreakPy_nl]

lemma splitlinesAux_ne_nil (cs : List Char) :
    ∀ acc : List Char, (cs = [] → acc ≠ []) → splitlinesAux acc false cs ≠ [] := by
  induction cs with
  | nil =>
    intro acc h
    rw [splitlinesAux_nil]
    have : ¬acc.isEmpty = true := by
      simp [List.isEmpty_iff]
      exact h rfl
    simp [this]
  | cons c rest ih =>
    intro acc _
    by_cases hb : isLineBreakPy c = true
    · rw [splitlinesAux]
      simp [hb]
    · rw [splitlinesAux_cons_nobreak _ _ _ _ (by simpa using hb)]
      exact ih (c :: acc) (by simp)

lemma splitlinesAux_no_break (cs : List Char) :
    ∀ (acc : List Char) (b : Bool), (∀ c ∈ acc, isLineBreakPy c = false) →
    ∀ l ∈ splitlinesAux acc b cs, ∀ c ∈ l.data, isLineBreakPy c = false := by
  induction cs with
  | nil =>
    intro acc b hacc l hl
    rw [splitlinesAux_nil] at hl
    by_cases hemp : acc.isEmpty
    · simp [hemp] at hl
    · simp [hemp] at hl
      subst hl
      intro c hc
      exact hacc c (by simpa using hc)
  | cons c rest ih =>
    intro acc b hacc l hl
    rw [splitlinesAux] at hl
    by_cases hg : (b && c = '\n') = true
    · simp only [hg, if_true] at hl
      exact ih [] false (by simp) l hl
    · simp only [hg, if_false] at hl
      by_cases hb : isLineBreakPy c = true
      · simp only [hb, if_true] at hl
        rcases List.mem_cons.mp hl with rfl | hl
        · intro ch hch
          exact hacc ch (by simpa using hch)
        · exact ih [] _ (by simp) l hl
      · simp only [hb, if_false] at hl
        refine ih (c :: acc) false ?_ l hl
        intro x hx
        rcases List.mem_cons.mp hx with rfl | hx1
        · simpa using hb
        · exact hacc x hx1

lemma splitlinesPy_no_break (s : String) :
    ∀ l ∈ splitlinesPy s, ∀ c ∈ l.data, isLineBreakPy c = false :=
  splitlinesAux_no_break s.data [] false (by simp)

lemma splitlinesAux_prefix (xs : List Char) :
    (∀ c ∈ xs, isLineBreakPy c = false) →
    ∀ (acc cs : List Char),
      splitlinesAux acc false (xs ++ cs) = splitlinesAux (xs.reverse ++ acc) false cs := by
  induction xs with
  | nil => intro _ acc cs; simp
  | cons x xs ih =>
    intro h acc cs
    have hx : isLineBreakPy x = false := h x (by simp)
    rw [List.cons_append, splitlinesAux_cons_nobreak _ _ _ _ hx,
      ih (fun c hc => h c (by simp [hc])) (x :: acc) cs]
    simp

lemma splitlinesAux_single (t : String) (hne : t.data ≠ [])
    (hnb : ∀ c ∈ t.data, isLineBreakPy c = false) :
    splitlinesAux [] false t.data = [t] := by
  have := splitlinesAux_prefix t.data hnb [] []
  simp only [List.append_nil] at this
  rw [this, splitlinesAux_nil]
  simp [List.isEmpty_iff, hne]

lemma joinNL_cons (l : String) (ls : List String) (h : ls ≠ []) :
    joinNL (l :: ls) = l ++ "\n" ++ joinNL ls :=
  match ls, h with
  | _ :: _, _ => rfl

lemma mk_data (s : String) : String.mk s.data = s := rfl

lemma data_nl : ("\n" : String).data = ['\n'] := rfl

lemma data_nl_append (t : String) : ("\n" ++ t).data = '\n' :: t.data := by
  rw [String.data_append, data_nl]
  rfl

/-- Splitting the join of break-free lines followed by the marker string
(which begins with its own `\n`) yields the lines, one empty line, and
the marker text. -/
lemma splitlines_joinNL_marker (ls : List String) (t : String)
    (hls : ∀ l ∈ ls, ∀ c ∈ l.data, isLineBreakPy c = false)
    (hne : t.data ≠ []) (hnb : ∀ c ∈ t.data, isLineBreakPy c = false) :
    splitlinesPy (joinNL (ls ++ ["\n" ++ t])) = ls ++ ["", t] := by
  induction ls with
  | nil =>
    simp only [List.nil_append]
    show splitlinesAux [] false ("\n" ++ t).data = ["", t]
    rw [data_nl_append, splitlinesAux_cons_nl, splitlinesAux_single t hne hnb]
    rfl
  | cons l ls ih =>
    have hl : ∀ c ∈ l.data, isLineBreakPy c = false := hls l (by simp)
    have hstep : joinNL (l :: ls ++ ["\n" ++ t]) = l ++ "\n" ++ joinNL (ls ++ ["\n" ++ t]) := by
      rw [List.cons_append, joinNL_cons]
      simp
    show splitlinesAux [] false (joinNL (l :: ls ++ ["\n" ++ t])).data = l :: ls ++ ["", t]
    rw [hstep]
    have hdata : (l ++ "\n" ++ joinNL (ls ++ ["\n" ++ t])).data
        = l.data ++ '\n' :: (joinNL (ls ++ ["\n" ++ t])).data := by
      rw [String.data_append, String.data_append, data_nl]
      simp
    rw [hdata, splitlinesAux_prefix l.data hl [] _, splitlinesAux_cons_nl]
    have h2 : splitlinesAux [] false (joinNL (ls ++ ["\n" ++ t])).data = ls ++ ["", t] :=
      ih (fun x hx => hls x (by simp [hx]))
    rw [h2]
    simp [mk_data]

/-- Re-joining the split lines reproduces the original string exactly
when the string uses only `\n` as line terminator and does not end with
one. -/
lemma joinNL_splitlinesAux_id (cs : List Char) :
    ∀ acc : List Char,
    (∀ c ∈ cs, isLineBreakPy c = false ∨ c = '\n') →
    cs.getLast? ≠ some '\n' →
    joinNL (splitlinesAux acc false cs) = String.mk (acc.reverse ++ cs) := by
  induction cs with
  | nil =>
    intro acc _ _
    rw [splitlinesAux_nil]
    by_cases h : acc.isEmpty
    · simp only [List.isEmpty_iff] at h
      subst h
      rfl
    · simp only [h, if_false]
      show String.mk acc.reverse = String.mk (acc.reverse ++ [])
      simp
  | cons c rest ih =>
    intro acc hall hlast
    rcases hall c (by simp) with hc | hc
    · rw [splitlinesAux_cons_nobreak _ _ _ _ hc]
      have hrest : rest.getLast? ≠ some '\n' := by
        match rest, hlast with
        | [], _ => simp
        | r :: rs, hl => simpa [List.getLast?_cons_cons] using hl
      rw [ih (c :: acc) (fun x hx => hall x (by simp [hx])) hrest]
      simp
    · subst hc
      match rest, hlast with
      | [], hlast => simp at hlast
      | r :: rs, hlast =>
        rw [splitlinesAux_cons_nl]
        have hne : splitlinesAux [] false (r :: rs) ≠ [] :=
          splitlinesAux_ne_nil (r :: rs) [] (by simp)
        rw [joinNL_cons _ _ hne,
          ih [] (fun x hx => hall x (by simp [hx]))
            (by simpa [List.getLast?_cons_cons] using hlast)]
        show String.mk acc.reverse ++ String.mk ['\n'] ++ String.mk ([] ++ r :: rs)
          = String.mk (acc.reverse ++ '\n' :: r :: rs)
        show String.mk ((acc.reverse ++ ['\n']) ++ ([] ++ r :: rs))
          = String.mk (acc.reverse ++ '\n' :: r :: rs)
        simp

lemma joinNL_splitlinesPy_id (s : String)
    (hall : ∀ c ∈ s.data, isLineBreakPy c = false ∨ c = '\n')
    (hlast : s.data.getLast? ≠ some '\n') :
    joinNL (splitlinesPy s) = s := by
  rw [splitlinesPy, joinNL_splitlinesAux_id s.data [] hall hlast]
  simp [mk_data]

/-! ### The truncation marker is a single break-free line -/

lemma digitChar_isDigit (k : Nat) (hk : k < 10) : (Nat.digitChar k).isDigit = true := by
  interval_cases k <;> decide

lemma toDigitsCore_digits (fuel : Nat) :
    ∀ (n : Nat) (ds : List Char), (∀ c ∈ ds, c.isDigit = true) →
    ∀ c ∈ Nat.toDigitsCore 10 fuel n ds, c.isDigit = true := by
  induction fuel with
  | zero => intro n ds h c hc; exact h c (by simpa [Nat.toDigitsCore] using hc)
  | succ fuel ih =>
    intro n ds h c hc
    rw [Nat.toDigitsCore] at hc
    have hd : (Nat.digitChar (n % 10)).isDigit = true :=
      digitChar_isDigit _ (Nat.mod_lt _ (by norm_num))
    by_cases hz : n / 10 = 0
    · simp only [hz, if_true] at hc
      rcases List.mem_cons.mp hc with rfl | hc
      · exact hd
      · exact h c hc
    · simp only [hz, if_false] at hc
      refine ih _ _ ?_ c hc
      intro x hx
      rcases List.mem_cons.mp hx with rfl | hx
      · exact hd
      · exact h x hx

lemma repr_digits (m : Nat) : ∀ c ∈ (Nat.repr m).data, c.isDigit = true := by
  intro c hc
  have : (Nat.repr m).data = Nat.toDigitsCore 10 (m + 1) m [] := rfl
  rw [this] at hc
  exact toDigitsCore_digits (m + 1) m [] (by simp) c hc

lemma break_not_digit (c : Char) (h : isLineBreakPy c = true) : c.isDigit = false := by
  simp only [isLineBreakPy, Bool.or_eq_true, decide_eq_true_eq] at h
  rcases h with ((((((((h | h) | h) | h) | h) | h) | h) | h) | h) | h <;> subst h <;> decide

lemma isDigit_not_break (c : Char) (h : c.isDigit = true) : isLineBreakPy c = false := by
  cases hb : isLineBreakPy c with
  | false => rfl
  | true => rw [break_not_digit c hb] at h; cases h

lemma truncationMarkerText_no_break (m : Nat) :
    ∀ c ∈ (truncationMarkerText m).data, isLineBreakPy c = false := by
  have h1 : ∀ c ∈ ("--- Diff truncated at " : String).data, isLineBreakPy c = false := by decide
  have h2 : ∀ c ∈ (" lines ---" : String).data, isLineBreakPy c = false := by decide
  intro c hc
  rw [truncationMarkerText, String.data_append, String.data_append] at hc
  rcases List.mem_append.mp hc with hc | hc
  · rcases List.mem_append.mp hc with hc | hc
    · exact h1 c hc
    · exact isDigit_not_break c (repr_digits m c hc)
  · exact h2 c hc

lemma truncationMarkerText_ne_empty (m : Nat) : (truncationMarkerText m).data ≠ [] := by
  rw [truncationMarkerText, String.data_append, String.data_append]
  simp [show ("--- Diff truncated at " : String).data ≠ [] from by decide]

lemma truncationMarker_eq (m : Nat) :
    truncationMarker m = "\n" ++ truncationMarkerText m := by
  rw [truncationMarker, truncationMarkerText]
  show String.mk _ = String.mk _
  simp

/-! ### Behaviour of `truncateDiff` -/

/-- Above the cap: the returned text splits into exactly the first
`max_diff_lines` raw lines, one empty line, and the marker text —
`max_diff_lines + 2` lines in total — and `truncated` is set. -/
lemma truncateDiff_gt (s : String) (m : Nat)
    (hL : (splitlinesPy s).length > m) :
    truncateDiff s m
      = (joinNL ((splitlinesPy s).take m ++ [truncationMarker m]), true) ∧
    splitlinesPy (truncateDiff s m).1
      = (splitlinesPy s).take m ++ ["", truncationMarkerText m] := by
  constructor
  · rw [truncateDiff]
    simp only [hL, if_true]
  · rw [truncateDiff]
    simp only [hL, if_true]
    rw [truncationMarker_eq]
    refine splitlines_joinNL_marker _ _ ?_ (truncationMarkerText_ne_empty m)
      (truncationMarkerText_no_break m)
    intro l hl
    exact splitlinesPy_no_break s l (List.mem_of_mem_take hl)

/-- At or below the cap: the returned text is the raw lines re-joined
with `\n` and `truncated` is false. -/
lemma truncateDiff_le (s : String) (m : Nat)
    (hL : (splitlinesPy s).length ≤ m) :
    truncateDiff s m = (joinNL (splitlinesPy s), false) := by
  rw [truncateDiff]
  simp only [gt_iff_lt, Nat.not_lt.mpr hL, if_false]

/-- The `truncated` flag is set iff the raw line count strictly exceeds
the cap. -/
lemma truncateDiff_truncated_iff (s : String) (m : Nat) :
    (truncateDiff s m).2 = true ↔ (splitlinesPy s).length > m := by
  rw [truncateDiff]
  by_cases h : (splitlinesPy s).length > m <;> simp [h]

/-! ### Behaviour of `analyze_file_changes` -/

/-- The success path with `include_diff = true`: when working-directory
resolution does not raise and all five git invocations succeed, the tool
returns the success document built from the three parsers and the
truncated diff, and the call log is exactly `gitCmds`. -/
lemma analyze_ok_diff (exec : Option String → List String → GitResult)
    (ro : RootsOutcome) (p : Params) (wd : Option String)
    (s1 s2 ns ss fd : String)
    (hwd : resolveWorkingDir p.cwd_from_root ro = .ok wd)
    (hdiff : p.include_diff = true)
    (h1 : exec wd ["git", "--version"] = .ok s1)
    (h2 : exec wd ["git", "rev-parse", "--is-inside-work-tree"] = .ok s2)
    (h3 : exec wd (["git", "diff", "--name-status", p.base_branch ++ "...HEAD"]
        ++ (if p.pathspec = "" then [] else [p.pathspec])) = .ok ns)
    (h4 : exec wd (["git", "diff", "--shortstat", p.base_branch ++ "...HEAD"]
        ++ (if p.pathspec = "" then [] else [p.pathspec])) = .ok ss)
    (h5 : exec wd (["git", "diff", p.base_branch ++ "...HEAD"]
        ++ (if p.pathspec = "" then [] else ["--", p.pathspec])) = .ok fd) :
    analyze_file_changes exec ro p
      = (.returns (.success p.base_branch (parseNameStatus ns)
            (parseShortstat (stripPy ss))
            (some (truncateDiff fd p.max_diff_lines))),
         (gitCmds p).map fun c => (wd, c)) := by
  rw [analyze_file_changes, hwd]
  simp only [h1, h2, h3, h4, h5, hdiff, if_true, gitCmds]
  simp [hdiff]

/-- The success path with `include_diff = false`: only the four
collection commands run, and the success document has no diff part. -/
lemma analyze_ok_nodiff (exec : Option String → List String → GitResult)
    (ro : RootsOutcome) (p : Params) (wd : Option String)
    (s1 s2 ns ss : String)
    (hwd : resolveWorkingDir p.cwd_from_root ro = .ok wd)
    (hdiff : p.include_diff = false)
    (h1 : exec wd ["git", "--version"] = .ok s1)
    (h2 : exec wd ["git", "rev-parse", "--is-inside-work-tree"] = .ok s2)
    (h3 : exec wd (["git", "diff", "--name-status", p.base_branch ++ "...HEAD"]
        ++ (if p.pathspec = "" then [] else [p.pathspec])) = .ok ns)
    (h4 : exec wd (["git", "diff", "--shortstat", p.base_branch ++ "...HEAD"]
        ++ (if p.pathspec = "" then [] else [p.pathspec])) = .ok ss) :
    analyze_file_changes exec ro p
      = (.returns (.success p.base_branch (parseNameStatus ns)
            (parseShortstat (stripPy ss)) none),
         (gitCmds p).map fun c => (wd, c)) := by
  rw [analyze_file_changes, hwd]
  simp only [h1, h2, h3, h4, hdiff, if_false, gitCmds]
  simp [hdiff]

/-- Every subprocess invocation the tool logs runs in the resolved
working directory. -/
lemma analyze_log_cwd (exec : Option String → List String → GitResult)
    (ro : RootsOutcome) (p : Params) (wd : Option String)
    (hwd : resolveWorkingDir p.cwd_from_root ro = .ok wd) :
    ∀ e ∈ (analyze_file_changes exec ro p).2, e.1 = wd := by
  rw [analyze_file_changes, hwd]
  cases hx1 : exec wd ["git", "--version"] with
  | notFound => simp [hx1]
  | failed s => simp [hx1]
  | ok s1 =>
  simp only [hx1]
  cases hx2 : exec wd ["git", "rev-parse", "--is-inside-work-tree"] with
  | notFound => simp [hx2]
  | failed s => simp [hx2]
  | ok s2 =>
  simp only [hx2]
  cases hx3 : exec wd (["git", "diff", "--name-status", p.base_branch ++ "...HEAD"]
      ++ (if p.pathspec = "" then [] else [p.pathspec])) with
  | notFound => simp [hx3]
  | failed s => simp [hx3]
  | ok s3 =>
  simp only [hx3]
  cases hx4 : exec wd (["git", "diff", "--shortstat", p.base_branch ++ "...HEAD"]
      ++ (if p.pathspec = "" then [] else [p.pathspec])) with
  | notFound => simp [hx4]
  | failed s => simp [hx4]
  | ok s4 =>
  simp only [hx4]
  by_cases hd : p.include_diff = true
  · simp only [hd, if_true]
    cases hx5 : exec wd (["git", "diff", p.base_branch ++ "...HEAD"]
        ++ (if p.pathspec = "" then [] else ["--", p.pathspec])) with
    | notFound => simp [hx5]
    | failed s => simp [hx5]
    | ok s5 => simp [hx5]
  · simp only [Bool.not_eq_true] at hd
    simp only [hd, Bool.false_eq_true, if_false]
    simp

/-- Inversion of a successful `include_diff = false` run: the four
collection commands all succeeded and the document fields are the
parses of their outputs, with no diff part. -/
lemma analyze_success_nodiff_inversion (exec : Option String → List String → GitResult)
    (ro : RootsOutcome) (p : Params) (wd : Option String)
    (hwd : resolveWorkingDir p.cwd_from_root ro = .ok wd)
    (hdiff : p.include_diff = false)
    (b : String) (files : List ChangeRecord) (summ : Summary) (dp : Option (String × Bool))
    (h : (analyze_file_changes exec ro p).1 = .returns (.success b files summ dp)) :
    dp = none ∧ b = p.base_branch ∧
    ∃ s1 s2 ns ss,
      exec wd ["git", "--version"] = .ok s1 ∧
      exec wd ["git", "rev-parse", "--is-inside-work-tree"] = .ok s2 ∧
      exec wd (["git", "diff", "--name-status", p.base_branch ++ "...HEAD"]
          ++ (if p.pathspec = "" then [] else [p.pathspec])) = .ok ns ∧
      exec wd (["git", "diff", "--shortstat", p.base_branch ++ "...HEAD"]
          ++ (if p.pathspec = "" then [] else [p.pathspec])) = .ok ss ∧
      files = parseNameStatus ns ∧ summ = parseShortstat (stripPy ss) := by
  rw [analyze_file_changes, hwd] at h
  cases hx1 : exec wd ["git", "--version"] with
  | notFound => simp [hx1] at h
  | failed s => simp [hx1] at h
  | ok s1 =>
  simp only [hx1] at h
  cases hx2 : exec wd ["git", "rev-parse", "--is-inside-work-tree"] with
  | notFound => simp [hx2] at h
  | failed s => simp [hx2] at h
  | ok s2 =>
  simp only [hx2] at h
  cases hx3 : exec wd ("git" :: "diff" :: "--name-status" :: (p.base_branch ++ "...HEAD")
      :: (if p.pathspec = "" then [] else [p.pathspec])) with
  | notFound => simp [hx3] at h
  | failed s => simp [hx3] at h
  | ok ns =>
  simp only [List.cons_append, List.nil_append, hx3] at h
  cases hx4 : exec wd ("git" :: "diff" :: "--shortstat" :: (p.base_branch ++ "...HEAD")
      :: (if p.pathspec = "" then [] else [p.pathspec])) with
  | notFound => simp [hx4] at h
  | failed s => simp [hx4] at h
  | ok ss =>
  simp only [List.cons_append, List.nil_append, hx4, hdiff, Bool.false_eq_true, if_false] at h
  simp only [Outcome.returns.injEq, Doc.success.injEq] at h
  obtain ⟨hb, hfiles, hsumm, hdp⟩ := h
  refine ⟨hdp.symm, hb.symm, s1, s2, ns, ss, rfl, rfl, ?_, ?_, hfiles.symm, hsumm.symm⟩ <;>
    · simp only [List.cons_append, List.nil_append]
      assumption

/-- Inversion of a successful `include_diff = true` run: all five
commands succeeded and the document fields are the parses of their
outputs, with the diff part the truncation of the fifth output. -/
lemma analyze_success_diff_inversion (exec : Option String → List String → GitResult)
    (ro : RootsOutcome) (p : Params) (wd : Option String)
    (hwd : resolveWorkingDir p.cwd_from_root ro = .ok wd)
    (hdiff : p.include_diff = true)
    (b : String) (files : List ChangeRecord) (summ : Summary) (dp : Option (String × Bool))
    (h : (analyze_file_changes exec ro p).1 = .returns (.success b files summ dp)) :
    b = p.base_branch ∧
    ∃ s1 s2 ns ss fd,
      exec wd ["git", "--version"] = .ok s1 ∧
      exec wd ["git", "rev-parse", "--is-inside-work-tree"] = .ok s2 ∧
      exec wd (["git", "diff", "--name-status", p.base_branch ++ "...HEAD"]
          ++ (if p.pathspec = "" then [] else [p.pathspec])) = .ok ns ∧
      exec wd (["git", "diff", "--shortstat", p.base_branch ++ "...HEAD"]
          ++ (if p.pathspec = "" then [] else [p.pathspec])) = .ok ss ∧
      exec wd (["git", "diff", p.base_branch ++ "...HEAD"]
          ++ (if p.pathspec = "" then [] else ["--", p.pathspec])) = .ok fd ∧
      files = parseNameStatus ns ∧ summ = parseShortstat (stripPy ss) ∧
      dp = some (truncateDiff fd p.max_diff_lines) := by
  rw [analyze_file_changes, hwd] at h
  cases hx1 : exec wd ["git", "--version"] with
  | notFound => simp [hx1] at h
  | failed s => simp [hx1] at h
  | ok s1 =>
  simp only [hx1] at h
  cases hx2 : exec wd ["git", "rev-parse", "--is-inside-work-tree"] with
  | notFound => simp [hx2] at h
  | failed s => simp [hx2] at h
  | ok s2 =>
  simp only [hx2] at h
  cases hx3 : exec wd ("git" :: "diff" :: "--name-status" :: (p.base_branch ++ "...HEAD")
      :: (if p.pathspec = "" then [] else [p.pathspec])) with
  | notFound => simp [hx3] at h
  | failed s => simp [hx3] at h
  | ok ns =>
  simp only [List.cons_append, List.nil_append, hx3] at h
  cases hx4 : exec wd ("git" :: "diff" :: "--shortstat" :: (p.base_branch ++ "...HEAD")
      :: (if p.pathspec = "" then [] else [p.pathspec])) with
  | notFound => simp [hx4] at h
  | failed s => simp [hx4] at h
  | ok ss =>
  simp only [List.cons_append, List.nil_append, hx4, hdiff, if_true] at h
  cases hx5 : exec wd ("git" :: "diff" :: (p.base_branch ++ "...HEAD")
      :: (if p.pathspec = "" then [] else ["--", p.pathspec])) with
  | notFound => simp [hx5] at h
  | failed s => simp [hx5] at h
  | ok fd =>
  simp only [List.cons_append, List.nil_append, hx5] at h
  simp only [Outcome.returns.injEq, Doc.success.injEq] at h
  obtain ⟨hb, hfiles, hsumm, hdp⟩ := h
  refine ⟨hb.symm, s1, s2, ns, ss, fd, rfl, rfl, ?_, ?_, ?_,
    hfiles.symm, hsumm.symm, hdp.symm⟩ <;>
    · simp only [List.cons_append, List.nil_append]
      assumption

/-- Two calls whose parameters differ only in `cwd_from_root` and whose
working-directory resolutions agree behave identically. -/
lemma analyze_eq_of_resolve_eq (exec : Option String → List String → GitResult)
    (ro ro' : RootsOutcome) (b : String) (i : Bool) (m : Nat) (c c' : Bool) (ps : String)
    (hres : resolveWorkingDir c ro = resolveWorkingDir c' ro') :
    analyze_file_changes exec ro ⟨b, i, m, c, ps⟩
      = analyze_file_changes exec ro' ⟨b, i, m, c', ps⟩ := by
  rw [analyze_file_changes, analyze_file_changes]
  show (match resolveWorkingDir c ro with | _ => _) = (match resolveWorkingDir c' ro' with | _ => _)
  rw [hres]

/-- No string of the form `b ++ "...HEAD"` equals a string whose last
character is not `D`. -/
lemma append_HEAD_ne (b t : String) (ht : t.data.getLast? ≠ some 'D') :
    ¬(b ++ "...HEAD" = t) := by
  intro he
  apply ht
  rw [← he, String.data_append]
  rw [List.getLast?_append_of_ne_nil _ (by decide)]
  decide

/-- Generic shape of the name-status parser: `filterMap` of an
if-then-else is filtering the blank lines then mapping the field
extraction. -/
lemma filterMap_blank_filter (g : String → ChangeRecord) (ls : List String) :
    ls.filterMap (fun line => if stripPy line = "" then none else some (g line))
      = (ls.filter fun l => !(stripPy l == "")).map g := by
  induction ls with
  | nil => rfl
  | cons l ls ih =>
    by_cases h : stripPy l = "" <;> simp [h, List.filterMap_cons, List.filter_cons, ih]

end PrAgent

namespace PrAgentClaims

open PrAgent

/-- Claim C3 (confirmed).  The condensed-statistics summary is parsed by
three independent extractions — files from "N file(s) changed",
insertions from "N insertion(s)(+)", deletions from "N deletion(s)(-)"
— each clause independently optional and singular/plural-insensitive,
any absent clause yielding 0; in particular
`" 3 files changed, 20 insertions(+), 5 deletions(-)"` parses to
`{files:3, insertions:20, deletions:5}` and
`" 1 file changed, 4 deletions(-)"` parses to
`{files:1, insertions:0, deletions:4}`. -/
theorem shortstat_three_independent_extractions :
    parseShortstat " 3 files changed, 20 insertions(+), 5 deletions(-)" = ⟨3, 20, 5⟩ ∧
    parseShortstat " 1 file changed, 4 deletions(-)" = ⟨1, 0, 4⟩ ∧
    ∀ s : String,
      parseShortstat s
        = ⟨(searchNum matchFilesAt s.data).getD 0,
           (searchNum matchInsAt s.data).getD 0,
           (searchNum matchDelAt s.data).getD 0⟩ ∧
      (searchNum matchFilesAt s.data = none → (parseShortstat s).files = 0) ∧
      (searchNum matchInsAt s.data = none → (parseShortstat s).insertions = 0) ∧
      (searchNum matchDelAt s.data = none → (parseShortstat s).deletions = 0) := by
  refine ⟨by decide, by decide, fun s => ⟨rfl, ?_, ?_, ?_⟩⟩ <;>
    · intro h
      simp [parseShortstat, h]

/-- Claim C4, counterexample.  The claim says every parsed status is a
single-letter code; but the parser stores the first tab field verbatim,
and a git rename line carries a similarity score there (`R100`), which
has four characters, not one. -/
theorem name_status_rename_score_not_single_letter :
    parseNameStatus "R100\told.txt\tnew.txt" = [⟨"new.txt", "R100"⟩] ∧
    ¬((⟨"new.txt", "R100"⟩ : ChangeRecord).status.length = 1) := by
  constructor
  · decide
  · decide

/-- Claim C4 (amended).  For every name-and-status listing, `changed_files`
has one record per non-blank line; each record's status is the line's
first tab-separated field taken verbatim (with no validation against a
status-code set) and its path is the last (destination) field. -/
theorem name_status_first_and_last_fields (s : String) :
    parseNameStatus s
      = ((splitlinesPy s).filter fun l => !(stripPy l == "")).map
          (fun line => ⟨(splitTab line).getLastD "", (splitTab line).headD ""⟩) ∧
    (parseNameStatus s).length
      = ((splitlinesPy s).filter fun l => !(stripPy l == "")).length := by
  have h : parseNameStatus s
      = ((splitlinesPy s).filter fun l => !(stripPy l == "")).map
          (fun line => ⟨(splitTab line).getLastD "", (splitTab line).headD ""⟩) :=
    filterMap_blank_filter
      (fun line => ⟨(splitTab line).getLastD "", (splitTab line).headD ""⟩) (splitlinesPy s)
  exact ⟨h, by rw [h, List.length_map]⟩

/-- Claim C5 (code bug).  The spec says `get_pr_templates` returns one
descriptor per template file with its exact content, but the starter
body is a `TODO` stub: it always returns the not-implemented error
document and never returns a template listing. -/
theorem get_pr_templates_is_stub :
    get_pr_templates = .errorDoc "Not implemented yet" "Read templates from TEMPLATES_DIR" ∧
    ∀ ts : List TemplateDescriptor, get_pr_templates ≠ .templates ts :=
  ⟨rfl, fun _ h => ToolDoc.noConfusion h⟩

/-- Claim C6 (code bug).  The spec says `suggest_template` always returns
a `{template, content, rationale}` document and maps unknown change
types to the default template, but the starter body is a `TODO` stub: it
always returns the not-implemented error document for every input,
including every unrecognized `change_type`. -/
theorem suggest_template_is_stub :
    ∀ (changes_summary change_type : String),
      suggest_template changes_summary change_type
        = .errorDoc "Not implemented yet" "Map change_type to templates" ∧
      ∀ t c r : String,
        suggest_template changes_summary change_type ≠ .suggestion t c r :=
  fun _ _ => ⟨rfl, fun _ _ _ h => ToolDoc.noConfusion h⟩

/-- Claim C7 (confirmed).  When the git binary is not invocable (the very
first probe raises `FileNotFoundError`) and working-directory resolution
completes, `analyze_file_changes` returns exactly the structured
document `{error: "git_not_found", hint: …}` — no exception crosses the
tool boundary. -/
theorem analyze_git_not_found (exec : Option String → List String → GitResult)
    (ro : RootsOutcome) (p : Params) (wd : Option String)
    (hwd : resolveWorkingDir p.cwd_from_root ro = .ok wd)
    (h : exec wd ["git", "--version"] = .notFound) :
    analyze_file_changes exec ro p
      = (.returns (.gitNotFound "Git is not installed or not in PATH."),
         [(wd, ["git", "--version"])]) := by
  rw [analyze_file_changes, hwd]
  simp only [h]

/-- Claim C7, witness: a concrete executor for which every invocation
raises `FileNotFoundError`, at the default parameters. -/
theorem analyze_git_not_found_witness :
    analyze_file_changes (fun _ _ => .notFound) (.roots []) defaultParams
      = (.returns (.gitNotFound "Git is not installed or not in PATH."),
         [(none, ["git", "--version"])]) :=
  analyze_git_not_found (fun _ _ => .notFound) (.roots []) defaultParams none rfl rfl

/-- Claim C1, counterexample.  The claim says a truncated diff has
exactly `max_diff_lines + 1` lines (the cap plus one marker line); but
the appended marker string itself begins with `"\n"`, so the returned
diff splits into `max_diff_lines + 2` lines — the kept lines, one empty
line, and the marker text. -/
theorem analyze_truncated_diff_not_cap_plus_one :
    (analyze_file_changes
        (fun _ args => GitResult.ok (if args = ["git", "diff", "main...HEAD"] then "a\nb" else ""))
        (.roots []) ⟨"main", true, 1, true, ""⟩).1
      = .returns (.success "main" [] ⟨0, 0, 0⟩
          (some ("a\n\n--- Diff truncated at 1 lines ---", true))) ∧
    (splitlinesPy "a\nb").length > 1 ∧
    (splitlinesPy "a\n\n--- Diff truncated at 1 lines ---").length = 3 ∧
    ¬(3 = 1 + 1) := by
  refine ⟨by decide, by decide, by decide, by decide⟩

/-- Claim C1 (amended).  With `include_diff` and a raw diff of `L` lines
where `L > max_diff_lines`, the success document's diff consists of the
first `max_diff_lines` raw lines, one empty line, and the truncation
marker line — `max_diff_lines + 2` lines in total (the appended marker
string carries a leading newline) — and `truncated` is true; moreover
`truncated` is true iff `L > max_diff_lines`. -/
theorem analyze_truncated_diff_shape
    (exec : Option String → List String → GitResult)
    (ro : RootsOutcome) (p : Params) (wd : Option String)
    (s1 s2 ns ss fd : String)
    (hwd : resolveWorkingDir p.cwd_from_root ro = .ok wd)
    (hdiff : p.include_diff = true)
    (h1 : exec wd ["git", "--version"] = .ok s1)
    (h2 : exec wd ["git", "rev-parse", "--is-inside-work-tree"] = .ok s2)
    (h3 : exec wd (["git", "diff", "--name-status", p.base_branch ++ "...HEAD"]
        ++ (if p.pathspec = "" then [] else [p.pathspec])) = .ok ns)
    (h4 : exec wd (["git", "diff", "--shortstat", p.base_branch ++ "...HEAD"]
        ++ (if p.pathspec = "" then [] else [p.pathspec])) = .ok ss)
    (h5 : exec wd (["git", "diff", p.base_branch ++ "...HEAD"]
        ++ (if p.pathspec = "" then [] else ["--", p.pathspec])) = .ok fd)
    (hL : (splitlinesPy fd).length > p.max_diff_lines) :
    (analyze_file_changes exec ro p).1
      = .returns (.success p.base_branch (parseNameStatus ns)
          (parseShortstat (stripPy ss)) (some (truncateDiff fd p.max_diff_lines))) ∧
    splitlinesPy (truncateDiff fd p.max_diff_lines).1
      = (splitlinesPy fd).take p.max_diff_lines
        ++ ["", truncationMarkerText p.max_diff_lines] ∧
    (splitlinesPy (truncateDiff fd p.max_diff_lines).1).length = p.max_diff_lines + 2 ∧
    ((truncateDiff fd p.max_diff_lines).2 = true
      ↔ (splitlinesPy fd).length > p.max_diff_lines) := by
  have hok := analyze_ok_diff exec ro p wd s1 s2 ns ss fd hwd hdiff h1 h2 h3 h4 h5
  have hsp := truncateDiff_gt fd p.max_diff_lines hL
  refine ⟨by rw [hok], hsp.2, ?_, truncateDiff_truncated_iff fd _⟩
  rw [hsp.2]
  simp [List.length_take]
  omega

/-- Claim C1, witness: a three-line raw diff against a cap of 2 produces
the two kept lines, the blank line, and the marker. -/
theorem analyze_truncated_diff_shape_witness :
    (analyze_file_changes
        (fun _ args => GitResult.ok
          (if args = ["git", "diff", "main...HEAD"] then "l1\nl2\nl3" else ""))
        (.roots []) ⟨"main", true, 2, true, ""⟩).1
      = .returns (.success "main" [] ⟨0, 0, 0⟩
          (some ("l1\nl2\n\n--- Diff truncated at 2 lines ---", true))) := by
  have h := analyze_truncated_diff_shape
    (fun _ args => GitResult.ok
      (if args = ["git", "diff", "main...HEAD"] then "l1\nl2\nl3" else ""))
    (.roots []) ⟨"main", true, 2, true, ""⟩ none "" "" "" "" "l1\nl2\nl3"
    rfl rfl (by decide) (by decide) (by decide) (by decide) (by decide) (by decide)
  rw [h.1]
  decide

/-- Claim C2, counterexample.  The claim says a diff at or below the cap
is returned exactly (round-trip identity); but the source re-joins
`splitlines()` output with `"\n"`, which drops a trailing newline: a raw
diff `"a\n"` (one line, below the cap of 500) comes back as `"a"`. -/
theorem analyze_small_diff_not_identity :
    (splitlinesPy "a\n").length ≤ 500 ∧
    (analyze_file_changes
        (fun _ args => GitResult.ok (if args = ["git", "diff", "main...HEAD"] then "a\n" else ""))
        (.roots []) defaultParams).1
      = .returns (.success "main" [] ⟨0, 0, 0⟩ (some ("a", false))) ∧
    ¬(("a" : String) = "a\n") := by
  refine ⟨by decide, by decide, by decide⟩

/-- Claim C2 (amended).  With `include_diff` and a raw diff of `L` lines
where `L ≤ max_diff_lines`, `truncated` is false and the returned diff
is the raw diff's lines re-joined with `"\n"` — equal to the raw diff
exactly whenever the raw diff uses only `"\n"` as line terminator and
does not end with one. -/
theorem analyze_small_diff_roundtrip
    (exec : Option String → List String → GitResult)
    (ro : RootsOutcome) (p : Params) (wd : Option String)
    (s1 s2 ns ss fd : String)
    (hwd : resolveWorkingDir p.cwd_from_root ro = .ok wd)
    (hdiff : p.include_diff = true)
    (h1 : exec wd ["git", "--version"] = .ok s1)
    (h2 : exec wd ["git", "rev-parse", "--is-inside-work-tree"] = .ok s2)
    (h3 : exec wd (["git", "diff", "--name-status", p.base_branch ++ "...HEAD"]
        ++ (if p.pathspec = "" then [] else [p.pathspec])) = .ok ns)
    (h4 : exec wd (["git", "diff", "--shortstat", p.base_branch ++ "...HEAD"]
        ++ (if p.pathspec = "" then [] else [p.pathspec])) = .ok ss)
    (h5 : exec wd (["git", "diff", p.base_branch ++ "...HEAD"]
        ++ (if p.pathspec = "" then [] else ["--", p.pathspec])) = .ok fd)
    (hL : (splitlinesPy fd).length ≤ p.max_diff_lines) :
    (analyze_file_changes exec ro p).1
      = .returns (.success p.base_branch (parseNameStatus ns)
          (parseShortstat (stripPy ss)) (some (truncateDiff fd p.max_diff_lines))) ∧
    truncateDiff fd p.max_diff_lines = (joinNL (splitlinesPy fd), false) ∧
    ((∀ c ∈ fd.data, isLineBreakPy c = false ∨ c = '\n') →
      fd.data.getLast? ≠ some '\n' →
      truncateDiff fd p.max_diff_lines = (fd, false)) := by
  have hok := analyze_ok_diff exec ro p wd s1 s2 ns ss fd hwd hdiff h1 h2 h3 h4 h5
  refine ⟨by rw [hok], truncateDiff_le fd _ hL, ?_⟩
  intro hall hlast
  rw [truncateDiff_le fd _ hL, joinNL_splitlinesPy_id fd hall hlast]

/-- Claim C2, witness: a two-line raw diff with no trailing newline and
only `\n` terminators, below the default cap, is returned verbatim with
`truncated = false`. -/
theorem analyze_small_diff_roundtrip_witness :
    (analyze_file_changes
        (fun _ args => GitResult.ok (if args = ["git", "diff", "main...HEAD"] then "x\ny" else ""))
        (.roots []) defaultParams).1
      = .returns (.success "main" [] ⟨0, 0, 0⟩ (some ("x\ny", false))) := by
  have h := analyze_small_diff_roundtrip
    (fun _ args => GitResult.ok (if args = ["git", "diff", "main...HEAD"] then "x\ny" else ""))
    (.roots []) defaultParams none "" "" "" "" "x\ny"
    rfl rfl (by decide) (by decide) (by decide) (by decide) (by decide) (by decide)
  rw [h.1, h.2.2 (by decide) (by decide)]
  decide

/-- Claim C8 (confirmed).  When working-directory resolution completes
and some git invocation in the run exits non-zero (all invocations
before it having succeeded), the tool returns the structured
`git_failed` document carrying that exact command line and its stripped
standard-error text — the failure is returned as a value, not raised. -/
theorem analyze_git_failed (exec : Option String → List String → GitResult)
    (ro : RootsOutcome) (p : Params) (wd : Option String)
    (hwd : resolveWorkingDir p.cwd_from_root ro = .ok wd)
    (k : Nat) (hk : k < (gitCmds p).length) (s : String)
    (hprev : ∀ j (hj : j < k), ∃ out,
      exec wd ((gitCmds p).get ⟨j, Nat.lt_trans hj hk⟩) = .ok out)
    (hfail : exec wd ((gitCmds p).get ⟨k, hk⟩) = .failed s) :
    (analyze_file_changes exec ro p).1
      = .returns (.gitFailed ((gitCmds p).get ⟨k, hk⟩) (stripPy s)) := by
  have hlen : (gitCmds p).length = if p.include_diff = true then 5 else 4 := by
    by_cases hd : p.include_diff = true <;> simp [gitCmds, hd]
  match k, hk, hprev, hfail with
  | 0, hk, hprev, hfail =>
    simp only [gitCmds, List.cons_append, List.nil_append, List.get] at hfail ⊢
    rw [analyze_file_changes, hwd]
    simp only [List.cons_append, List.nil_append, hfail]
  | 1, hk, hprev, hfail =>
    obtain ⟨o0, h0⟩ := hprev 0 (by omega)
    simp only [gitCmds, List.cons_append, List.nil_append, List.get] at hfail h0 ⊢
    rw [analyze_file_changes, hwd]
    simp only [List.cons_append, List.nil_append, h0, hfail]
  | 2, hk, hprev, hfail =>
    obtain ⟨o0, h0⟩ := hprev 0 (by omega)
    obtain ⟨o1, h1⟩ := hprev 1 (by omega)
    simp only [gitCmds, List.cons_append, List.nil_append, List.get] at hfail h0 h1 ⊢
    rw [analyze_file_changes, hwd]
    simp only [List.cons_append, List.nil_append, h0, h1, hfail]
  | 3, hk, hprev, hfail =>
    obtain ⟨o0, h0⟩ := hprev 0 (by omega)
    obtain ⟨o1, h1⟩ := hprev 1 (by omega)
    obtain ⟨o2, h2⟩ := hprev 2 (by omega)
    simp only [gitCmds, List.cons_append, List.nil_append, List.get] at hfail h0 h1 h2 ⊢
    rw [analyze_file_changes, hwd]
    simp only [List.cons_append, List.nil_append, h0, h1, h2, hfail]
  | 4, hk, hprev, hfail =>
    have hd : p.include_diff = true := by
      by_cases hd : p.include_diff = true
      · exact hd
      · rw [hlen, if_neg hd] at hk; omega
    obtain ⟨o0, h0⟩ := hprev 0 (by omega)
    obtain ⟨o1, h1⟩ := hprev 1 (by omega)
    obtain ⟨o2, h2⟩ := hprev 2 (by omega)
    obtain ⟨o3, h3⟩ := hprev 3 (by omega)
    simp [gitCmds, hd] at hfail h0 h1 h2 h3 ⊢
    rw [analyze_file_changes, hwd]
    simp [h0, h1, h2, h3, hfail, hd]
  | (n + 5), hk, _, _ =>
    exfalso
    rw [hlen] at hk
    split at hk <;> omega

/-- Claim C8, witness: an executor whose very first invocation exits
non-zero with stderr `" boom\n"` yields the `git_failed` document for
`git --version` with the stripped stderr text. -/
theorem analyze_git_failed_witness :
    (analyze_file_changes (fun _ _ => .failed " boom\n") (.roots []) defaultParams).1
      = .returns (.gitFailed ["git", "--version"] "boom") := by
  have h := analyze_git_failed (fun _ _ => .failed " boom\n") (.roots []) defaultParams none
    rfl 0 (by decide) " boom\n" (fun j hj => absurd hj (by omega)) rfl
  rw [h]
  decide

/-- Claim C9, counterexample.  The claim says that when the host
root-resolution capability throws, the tool silently falls back to the
current directory and never surfaces the condition; but only
`ValueError` and `AttributeError` are caught at the resolution site
(line 73), and of the remaining classes only `CalledProcessError` and
`FileNotFoundError` are caught — by the tool's outer handlers (lines
145/154), which turn them into error documents, not a fallback.  An
exception of any other class (e.g. a `RuntimeError` or `McpError`)
escapes the tool uncaught, producing neither a fallback nor a
document. -/
theorem analyze_roots_exception_escapes :
    analyze_file_changes (fun _ _ => GitResult.ok "") (.throws .otherError) defaultParams
      = (.raises .otherError, []) ∧
    ∀ d : Doc, (Outcome.raises .otherError) ≠ .returns d :=
  ⟨rfl, fun _ h => Outcome.noConfusion h⟩

/-- Claim C9 (amended).  If the roots capability raises `ValueError` or
`AttributeError`, or returns zero candidates, the tool silently falls
back to the process's current directory (`cwd = None`) and behaves
exactly as a call with `cwd_from_root = false`; if it returns a
non-empty candidate list, the first candidate's path is resolved and
every subprocess invocation runs in it.  A `FileNotFoundError` or
`CalledProcessError` from the capability is caught by the tool's outer
handlers and returned as the `git_not_found` / `git_failed` document
respectively (no subprocess is invoked), and an exception of any other
class propagates out of the operation (see the counterexample). -/
theorem analyze_roots_fallback (exec : Option String → List String → GitResult)
    (ro : RootsOutcome) (p : Params)
    (h : ro = .throws .valueError ∨ ro = .throws .attributeError ∨ ro = .roots []) :
    resolveWorkingDir p.cwd_from_root ro = .ok none ∧
    analyze_file_changes exec ro p
      = analyze_file_changes exec ro
          ⟨p.base_branch, p.include_diff, p.max_diff_lines, false, p.pathspec⟩ ∧
    (∀ (r : String) (rest : List String),
      resolveWorkingDir true (.roots (r :: rest)) = .ok (some r)) ∧
    (∀ (r : String) (rest : List String) (q : Params), q.cwd_from_root = true →
      ∀ e ∈ (analyze_file_changes exec (.roots (r :: rest)) q).2, e.1 = some r) ∧
    (∀ q : Params, q.cwd_from_root = true →
      analyze_file_changes exec (.throws .fileNotFoundError) q
        = (.returns (.gitNotFound "Git is not installed or not in PATH."), []) ∧
      ∀ (c : List String) (s : String),
        analyze_file_changes exec (.throws (.calledProcessError c s)) q
          = (.returns (.gitFailed c (stripPy s)), [])) := by
  have hres : resolveWorkingDir p.cwd_from_root ro = .ok none := by
    cases hc : p.cwd_from_root
    · simp [resolveWorkingDir]
    · rcases h with rfl | rfl | rfl <;> simp [resolveWorkingDir]
  refine ⟨hres, ?_, fun r rest => rfl, ?_, ?_⟩
  · have hp : p = ⟨p.base_branch, p.include_diff, p.max_diff_lines, p.cwd_from_root, p.pathspec⟩ := rfl
    rw [hp]
    refine analyze_eq_of_resolve_eq exec ro ro p.base_branch p.include_diff p.max_diff_lines
      p.cwd_from_root false p.pathspec ?_
    rw [hres]
    rfl
  · intro r rest q hq e he
    refine analyze_log_cwd exec (.roots (r :: rest)) q (some r) ?_ e he
    rw [hq]
    rfl
  · intro q hq
    constructor
    · rw [analyze_file_changes, hq]
      rfl
    · intro c s
      rw [analyze_file_changes, hq]
      rfl

/-- Claim C9, witness: a `ValueError` from the capability at the default
parameters resolves to the current directory and the call coincides with
a `cwd_from_root = false` call. -/
theorem analyze_roots_fallback_witness :
    resolveWorkingDir true (.throws .valueError) = .ok none ∧
    analyze_file_changes (fun _ _ => GitResult.ok "") (.throws .valueError) defaultParams
      = analyze_file_changes (fun _ _ => GitResult.ok "") (.throws .valueError)
          ⟨"main", true, 500, false, ""⟩ := by
  have h := analyze_roots_fallback (fun _ _ => GitResult.ok "") (.throws .valueError)
    defaultParams (Or.inl rfl)
  exact ⟨h.1, h.2.1⟩

/-- Claim C10, counterexample.  The claim says the three collection
fields of an `include_diff = false` success are identical to what the
same call with `include_diff = true` would produce; but when the diff
fetch itself fails, the `include_diff = true` call produces a
`git_failed` error document and no success fields at all, while the
`include_diff = false` call succeeds. -/
theorem analyze_nodiff_but_diff_run_fails :
    (analyze_file_changes
        (fun _ args => if args = ["git", "diff", "main...HEAD"] then .failed "boom" else .ok "")
        (.roots []) ⟨"main", false, 500, true, ""⟩).1
      = .returns (.success "main" [] ⟨0, 0, 0⟩ none) ∧
    (analyze_file_changes
        (fun _ args => if args = ["git", "diff", "main...HEAD"] then .failed "boom" else .ok "")
        (.roots []) ⟨"main", true, 500, true, ""⟩).1
      = .returns (.gitFailed ["git", "diff", "main...HEAD"] "boom") ∧
    ∀ (b : String) (files : List ChangeRecord) (summ : Summary) (dp : Option (String × Bool)),
      (analyze_file_changes
          (fun _ args => if args = ["git", "diff", "main...HEAD"] then .failed "boom" else .ok "")
          (.roots []) ⟨"main", true, 500, true, ""⟩).1
        ≠ .returns (.success b files summ dp) := by
  refine ⟨by decide, by decide, ?_⟩
  intro b files summ dp hcon
  have h2 : (analyze_file_changes
      (fun _ args => if args = ["git", "diff", "main...HEAD"] then .failed "boom" else .ok "")
      (.roots []) ⟨"main", true, 500, true, ""⟩).1
      = .returns (.gitFailed ["git", "diff", "main...HEAD"] "boom") := by decide
  rw [h2] at hcon
  simp at hcon

/-- Claim C10 (amended).  A successful `include_diff = false` call has no
`diff`/`truncated` part, never invokes the diff-fetch command (its
subprocess log is exactly the four collection commands), and its
`base_branch`, `changed_files` and `summary` fields agree with those of
the same call with `include_diff = true` whenever that call also returns
a success document. -/
theorem analyze_nodiff_frame (exec : Option String → List String → GitResult)
    (ro : RootsOutcome) (p : Params) (wd : Option String)
    (hwd : resolveWorkingDir p.cwd_from_root ro = .ok wd)
    (hdiff : p.include_diff = false)
    (b : String) (files : List ChangeRecord) (summ : Summary) (dp : Option (String × Bool))
    (h : (analyze_file_changes exec ro p).1 = .returns (.success b files summ dp)) :
    dp = none ∧
    (analyze_file_changes exec ro p).2.length = 4 ∧
    (∀ e ∈ (analyze_file_changes exec ro p).2,
      e.2 ≠ ["git", "diff", p.base_branch ++ "...HEAD"]
        ++ (if p.pathspec = "" then [] else ["--", p.pathspec])) ∧
    (∀ (b' : String) (files' : List ChangeRecord) (summ' : Summary)
        (dp' : Option (String × Bool)),
      (analyze_file_changes exec ro
          ⟨p.base_branch, true, p.max_diff_lines, p.cwd_from_root, p.pathspec⟩).1
        = .returns (.success b' files' summ' dp') →
      b' = b ∧ files' = files ∧ summ' = summ) := by
  obtain ⟨hdp, hb, s1, s2, ns, ss, h1, h2, h3, h4, hfiles, hsumm⟩ :=
    analyze_success_nodiff_inversion exec ro p wd hwd hdiff b files summ dp h
  have hrun := analyze_ok_nodiff exec ro p wd s1 s2 ns ss hwd hdiff h1 h2 h3 h4
  have hns : ¬(("--name-status" : String) = p.base_branch ++ "...HEAD") :=
    fun hcon => append_HEAD_ne p.base_branch "--name-status" (by decide) hcon.symm
  have hss : ¬(("--shortstat" : String) = p.base_branch ++ "...HEAD") :=
    fun hcon => append_HEAD_ne p.base_branch "--shortstat" (by decide) hcon.symm
  refine ⟨hdp, ?_, ?_, ?_⟩
  · rw [hrun]
    simp [gitCmds, hdiff]
  · intro e he
    rw [hrun] at he
    simp only [gitCmds, hdiff, Bool.false_eq_true, if_false, List.append_nil,
      List.map_cons, List.map_nil, List.mem_cons, List.not_mem_nil, or_false] at he
    rcases he with rfl | rfl | rfl | rfl <;>
      simp [List.cons_append, hns, hss]
  · intro b' files' summ' dp' h'
    obtain ⟨hb', t1, t2, ns', ss', fd', h1', h2', h3', h4', h5', hfiles', hsumm', hdp'⟩ :=
      analyze_success_diff_inversion exec ro
        ⟨p.base_branch, true, p.max_diff_lines, p.cwd_from_root, p.pathspec⟩ wd hwd rfl
        b' files' summ' dp' h'
    have hnseq : GitResult.ok ns = GitResult.ok ns' := h3.symm.trans h3'
    have hsseq : GitResult.ok ss = GitResult.ok ss' := h4.symm.trans h4'
    injection hnseq with hnseq
    injection hsseq with hsseq
    subst hnseq
    subst hsseq
    exact ⟨hb'.trans hb.symm, hfiles'.trans hfiles.symm, hsumm'.trans hsumm.symm⟩

/-- Claim C10, witness: with an everywhere-succeeding executor the
collection fields of the `include_diff = false` and `include_diff =
true` runs coincide. -/
theorem analyze_nodiff_frame_witness :
    ("main" : String) = "main" ∧ ([] : List ChangeRecord) = [] ∧
    (⟨0, 0, 0⟩ : Summary) = ⟨0, 0, 0⟩ := by
  have hF : (analyze_file_changes (fun _ _ => GitResult.ok "") (.roots [])
      ⟨"main", false, 500, true, ""⟩).1
      = .returns (.success "main" [] ⟨0, 0, 0⟩ none) := by decide
  have h := analyze_nodiff_frame (fun _ _ => GitResult.ok "") (.roots [])
    ⟨"main", false, 500, true, ""⟩ none rfl rfl "main" [] ⟨0, 0, 0⟩ none hF
  have hT : (analyze_file_changes (fun _ _ => GitResult.ok "") (.roots [])
      ⟨"main", true, 500, true, ""⟩).1
      = .returns (.success "main" [] ⟨0, 0, 0⟩ (some (truncateDiff "" 500))) := by decide
  exact h.2.2.2 "main" [] ⟨0, 0, 0⟩ (some (truncateDiff "" 500)) hT

end PrAgentClaims
